import Mathlib

/-!
Shallow embedding of `abfs/data.py` (the `Data` dataset facade) and proofs of
the specification claims about it.

External collaborators (CSV ingestion, the group split algorithm, GDAL/OGR,
PIL resizing, the augmentation transform, path resolution) are modelled as
explicit parameters (`load`, `gds`, `Env`), matching the spec, which places
them out of scope and specifies them only at their interface.
-/

namespace ABFS

/-- Configuration object handed to the facade; only `region` and `band` are read
by `data.py` (for CSV path construction, an external concern). -/
structure Config where
  region : String
  band : String
deriving Repr, DecidableEq

/-- Opaque split configuration, passed through to the external group-split
collaborator (`abfs.group_data_split`). -/
structure SplitConfig where
  params : String
deriving Repr, DecidableEq

/-- Default split configuration imported from `abfs.group_data_split`. -/
def DEFAULT_SPLIT_CONFIG : SplitConfig := ⟨"default"⟩

/-- Opaque augmentation configuration, passed through to the external
`SegmentationAugmentation` collaborator. -/
structure SegAugConfig where
  params : String
deriving Repr, DecidableEq

/-- Default augmentation configuration imported from
`abfs.segmentation_augmentation`. -/
def MOVE_SCALE_ROTATE : SegAugConfig := ⟨"move_scale_rotate"⟩

/-- State held by the external `SegmentationAugmentation` object constructed in
`Data.__init__`: its configuration and optional random seed. -/
structure SegmentationAugmentation where
  config : SegAugConfig
  seed : Option Nat
deriving Repr, DecidableEq

/-- One row of the annotation table: an image identifier and the WKT text of
one polygon. Image identifiers are modelled as naturals; the derived `sq_ft`
column is never read by the code under study and is omitted. -/
structure Row where
  ImageId : Nat
  PolygonWKT_Geo : String
deriving Repr, DecidableEq

/-- Result of the external `GroupDataSplit` collaborator: three record-table
subsets keyed by disjoint image-identifier groups (black box per the spec). -/
structure GroupDataSplit where
  train_df : List Row
  val_df : List Row
  test_df : List Row
deriving Repr, DecidableEq

/-- Mirror of `ALWAYS_TRUE = lambda df: df.index != -1` from `data.py`: the
unrestricted row filter (true on every row). -/
def ALWAYS_TRUE : Row → Bool := fun _ => true

/-- State of a `Data` facade instance (`Data.__init__` fields). `_df` is
`none` when no `override_df` was given and the CSV has not been loaded. -/
structure Data where
  config : Config
  split_config : SplitConfig
  _df : Option (List Row)
  _image_ids : List Nat
  _data_filter : Row → Bool
  _split_data : Option GroupDataSplit
  batch_size : Nat
  augment : Bool
  augmentation : SegmentationAugmentation

/-- Embedding of `Data.__init__`. The `assert augment == False or
batch_size % 2 == 0` statement is modelled as an `Except` failure
(`AssertionError`, named `PreconditionError` by the spec), raised at
construction, before any batch work. -/
def Data.init (config : Config) (split_config : SplitConfig)
    (seg_aug_config : SegAugConfig) (batch_size : Nat)
    (override_df : Option (List Row)) (aug_random_seed : Option Nat)
    (augment : Bool) : Except String Data :=
  if augment = true ∧ ¬ batch_size % 2 = 0 then
    .error "PreconditionError"
  else
    .ok { config := config
          split_config := split_config
          _df := override_df
          _image_ids := []
          _data_filter := ALWAYS_TRUE
          _split_data := none
          batch_size := batch_size
          augment := augment
          augmentation := ⟨seg_aug_config, aug_random_seed⟩ }

/-- Embedding of `pandas.unique` (first-occurrence order, duplicates dropped),
written with a seen-accumulator. -/
def uniqueAux (seen : List Nat) : List Nat → List Nat
  | [] => []
  | x :: xs => if x ∈ seen then uniqueAux seen xs else x :: uniqueAux (x :: seen) xs

/-- Embedding of `df.ImageId.unique()` applied to a column given as a list. -/
def unique (l : List Nat) : List Nat := uniqueAux [] l

/-- Embedding of the `Data.df` property. When `_df` is `None` the table is
loaded by the external CSV/WKT ingestion collaborator, modelled by `load`;
either way the current `data_filter` is applied row-wise
(`self._df[self.data_filter(self._df)]`). -/
def Data.df (load : Config → List Row) (d : Data) : List Row :=
  (match d._df with
   | some t => t
   | none => load d.config).filter d._data_filter

/-- Embedding of the `Data.image_ids` property: when the cache `_image_ids` is
empty it is filled from `self.df.ImageId.unique()`; subsequent calls return the
cache. Returns the value together with the updated facade state. -/
def Data.image_ids (load : Config → List Row) (d : Data) : List Nat × Data :=
  if d._image_ids = [] then
    let ids := unique ((Data.df load d).map Row.ImageId)
    (ids, { d with _image_ids := ids })
  else
    (d._image_ids, d)

/-- Embedding of the `Data.data_filter` setter: stores the new predicate and
clears the cached split (`self._split_data = None`). No other field is
touched. -/
def Data.set_data_filter (d : Data) (f : Row → Bool) : Data :=
  { d with _data_filter := f, _split_data := none }

/-- Embedding of `Data.reset_filter`. -/
def Data.reset_filter (d : Data) : Data :=
  Data.set_data_filter d ALWAYS_TRUE

/-- Embedding of the `Data.split_data` property. On a cache miss the external
`GroupDataSplit` collaborator `gds` is invoked on the current (filtered) table
and the result cached. Returns the value with the updated state. -/
def Data.split_data (gds : List Row → String → SplitConfig → GroupDataSplit)
    (load : Config → List Row) (d : Data) : GroupDataSplit × Data :=
  match d._split_data with
  | some s => (s, d)
  | none =>
      let s := gds (Data.df load d) "ImageId" d.split_config
      (s, { d with _split_data := some s })

/-- Python `ceil(n / b)` on naturals: true division followed by `math.ceil`.
Division by zero raises `ZeroDivisionError`, modelled as `none`. -/
def pyCeilDiv (n b : Nat) : Option Nat :=
  if b = 0 then none else some (Int.toNat ⌈(n : ℚ) / (b : ℚ)⌉)

/-- Identifier slice computed inside `Data._batch_data`:
`df.ImageId.unique()[start_index:end_index]` with
`batch_size = self.batch_size // (int(augment) + 1)`,
`start_index = batch_id * batch_size`, `end_index = start_index + batch_size`. -/
def Data.batch_image_ids (d : Data) (df : List Row) (augment : Bool)
    (batch_id : Nat) : List Nat :=
  ((unique (df.map Row.ImageId)).drop
      (batch_id * (d.batch_size / (if augment then 2 else 1)))).take
    (d.batch_size / (if augment then 2 else 1))

/-- Embedding of `Data._batch_data`: slices the identifier sequence and builds
a fresh sub-facade over `df[df.ImageId.isin(image_ids)]` via `Data.__init__`
with only `config`, `override_df` and `augment` supplied (all other
constructor arguments take their defaults). -/
def Data.batch_data (d : Data) (df : List Row) (augment : Bool)
    (batch_id : Nat) : Except String Data :=
  Data.init d.config DEFAULT_SPLIT_CONFIG MOVE_SCALE_ROTATE 16
    (some (df.filter (fun r =>
      decide (r.ImageId ∈ Data.batch_image_ids d df augment batch_id))))
    none augment

/-- Embedding of `Data._batch_count`:
`ceil(df.ImageId.nunique() / (self.batch_size // (int(augment) + 1)))`. -/
def Data.batch_count (d : Data) (df : List Row) (augment : Bool) : Option Nat :=
  pyCeilDiv (unique (df.map Row.ImageId)).length
    (d.batch_size / (if augment then 2 else 1))

/-- Embedding of `Data.train_batch_data` on its default-`df` path:
`df = self.split_data.train_df()` then `self._batch_data(df, self.augment, batch_id)`. -/
def Data.train_batch_data (gds : List Row → String → SplitConfig → GroupDataSplit)
    (load : Config → List Row) (d : Data) (batch_id : Nat) : Except String Data :=
  Data.batch_data d (Data.split_data gds load d).1.train_df d.augment batch_id

/-- Embedding of `Data.train_batch_count` on its default-`df` path. -/
def Data.train_batch_count (gds : List Row → String → SplitConfig → GroupDataSplit)
    (load : Config → List Row) (d : Data) : Option Nat :=
  Data.batch_count d (Data.split_data gds load d).1.train_df d.augment

/-- Embedding of `Data.val_batch_data`: always passes `augment = False`. -/
def Data.val_batch_data (gds : List Row → String → SplitConfig → GroupDataSplit)
    (load : Config → List Row) (d : Data) (batch_id : Nat) : Except String Data :=
  Data.batch_data d (Data.split_data gds load d).1.val_df false batch_id

/-- Embedding of `Data.val_batch_count`: always passes `augment = False`. -/
def Data.val_batch_count (gds : List Row → String → SplitConfig → GroupDataSplit)
    (load : Config → List Row) (d : Data) : Option Nat :=
  Data.batch_count d (Data.split_data gds load d).1.val_df false

/-- Embedding of `Data.test_batch_data`: always passes `augment = False`. -/
def Data.test_batch_data (gds : List Row → String → SplitConfig → GroupDataSplit)
    (load : Config → List Row) (d : Data) (batch_id : Nat) : Except String Data :=
  Data.batch_data d (Data.split_data gds load d).1.test_df false batch_id

/-- Embedding of `Data.test_batch_count`: always passes `augment = False`. -/
def Data.test_batch_count (gds : List Row → String → SplitConfig → GroupDataSplit)
    (load : Config → List Row) (d : Data) : Option Nat :=
  Data.batch_count d (Data.split_data gds load d).1.test_df false

/-- Numpy array model: a shape together with an entry function indexed by a
full multi-index. Only shape and entries are observable here. -/
structure NpArray where
  shape : List Nat
  entry : List Nat → ℚ

/-- Raster metadata of a geo-referenced image file, as exposed by
`GetGeoTransform` and `GetProjection`: the six affine coefficients and the
projection descriptor. -/
structure GeoMeta where
  transform : List ℚ
  projection : String

/-- One image file on disk, as seen by the two external readers used in
`data.py`: `plt.imread` reads the `height` times `width` times `channels`
pixel grid, `gdal.Open` reads the same grid dimensions (`RasterYSize`,
`RasterXSize`) plus the raster metadata, which is `none` when unavailable. -/
structure ImageFile where
  height : Nat
  width : Nat
  channels : Nat
  pixel : Nat → Nat → Nat → ℚ
  geo : Option GeoMeta

/-- Opaque OGR geometry value produced by `ogr.CreateGeometryFromWkt`. -/
structure Geometry where
  rep : String
deriving Repr, DecidableEq

/-- Failure modes of sample resolution. The spec names the polygon-parse
failure `GeometryError`, the missing-raster-metadata failure `AlignmentError`,
the absent-identifier failure `LookupError` (the `KeyError` of `get_group`),
and `fileNotFound` is the error `plt.imread` raises on a missing file. -/
inductive DataError where
  | fileNotFound
  | lookup
  | alignment
  | geometry
deriving Repr, DecidableEq

/-- External collaborators used by the sample source and batch assembly:
path resolution (`abfs.path.image_id_to_path`), the filesystem, the WKT
parser (`none` models a parse failure), the GDAL rasterizer burn
(`RasterizeLayer` and `ReadAsArray` pixel values), the PIL resize, and the
`SegmentationAugmentation.run` transform. -/
structure Env where
  pathOf : Config → Nat → String
  files : String → Option ImageFile
  parseWkt : String → Option Geometry
  burn : List Geometry → GeoMeta → Nat → Nat → Nat → Nat → ℚ
  resize : Nat × Nat → NpArray → NpArray
  augRun : List NpArray → List NpArray → List NpArray × List NpArray

/-- Embedding of `Data.image_for`:
`plt.imread(image_id_to_path(self.config, image_id))`, yielding the pixel
array of shape `(height, width, channels)` of the addressed file. -/
def Data.image_for (env : Env) (d : Data) (image_id : Nat) : Except DataError NpArray :=
  match env.files (env.pathOf d.config image_id) with
  | none => .error .fileNotFound
  | some f =>
      .ok { shape := [f.height, f.width, f.channels]
            entry := fun idx =>
              match idx with
              | [r, c, ch] => f.pixel r c ch
              | _ => 0 }

/-- Sequential parse of every polygon WKT of an identifier's rows; the loop in
`mask_for` aborts at the first `CreateGeometryFromWkt` failure. -/
def parseAllWkt (env : Env) : List String → Option (List Geometry)
  | [] => some []
  | w :: ws =>
      match env.parseWkt w with
      | none => none
      | some g =>
          match parseAllWkt env ws with
          | none => none
          | some gs => some (g :: gs)

/-- Embedding of `Data.mask_for`: look up the identifier's rows
(`KeyError` when absent), open the image raster to obtain `RasterXSize`,
`RasterYSize`, transform and projection (alignment failure when the file or
its metadata is unavailable), parse every row's polygon WKT (geometry failure
on a parse error), then burn the polygons into a fresh in-memory raster of
exactly `x_size` by `y_size` and return it as an array of shape
`(y_size, x_size)`. -/
def Data.mask_for (env : Env) (load : Config → List Row) (d : Data)
    (image_id : Nat) : Except DataError NpArray :=
  match (Data.df load d).filter (fun r => decide (r.ImageId = image_id)) with
  | [] => .error .lookup
  | _ :: _ =>
      match env.files (env.pathOf d.config image_id) with
      | none => .error .alignment
      | some f =>
          match f.geo with
          | none => .error .alignment
          | some meta =>
              match parseAllWkt env
                  (((Data.df load d).filter
                    (fun r => decide (r.ImageId = image_id))).map Row.PolygonWKT_Geo) with
              | none => .error .geometry
              | some polys =>
                  .ok { shape := [f.height, f.width]
                        entry := fun idx =>
                          match idx with
                          | [r, c] => env.burn polys meta f.width f.height r c
                          | _ => 0 }

/-- Embedding of `Data._to_single_nn`: resolve the image and the mask for one
identifier, then resize both to the requested shape. -/
def Data.to_single_nn (env : Env) (load : Config → List Row) (d : Data)
    (shape : Nat × Nat) (image_id : Nat) : Except DataError (NpArray × NpArray) := do
  let img ← Data.image_for env d image_id
  let msk ← Data.mask_for env load d image_id
  return (env.resize shape img, env.resize shape msk)

/-- Embedding of `Data._augment_nn`: run the external augmentation on the
collected images and masks and concatenate originals with augmented. -/
def Data.augment_nn (env : Env) (images masks : List NpArray) :
    List NpArray × List NpArray :=
  ((images ++ (env.augRun images masks).1), (masks ++ (env.augRun images masks).2))

/-- Numpy stacking `np.array(list_of_arrays)`: the leading dimension is the
list length, the remaining dimensions are the common element shape. -/
def npStack (xs : List NpArray) : NpArray :=
  { shape := xs.length ::
      (match xs with
       | [] => []
       | x :: _ => x.shape)
    entry := fun idx =>
      match idx with
      | [] => 0
      | i :: rest =>
          match xs.get? i with
          | some a => a.entry rest
          | none => 0 }

/-- Pixel rescaling `x / 255` applied entry-wise. -/
def npScale (a : NpArray) : NpArray :=
  { shape := a.shape, entry := fun idx => a.entry idx / 255 }

/-- Trailing singleton channel dimension, `arr[:, :, :, np.newaxis]`. -/
def npNewaxis (a : NpArray) : NpArray :=
  { shape := a.shape ++ [1], entry := fun idx => a.entry (idx.take a.shape.length) }

/-- Embedding of `Data.to_nn`: resolve a sample pair for every unique image
identifier of the current filtered view, optionally augment (doubling), stack
into two arrays, optionally rescale pixels, and widen the mask array with a
trailing singleton channel dimension. -/
def Data.to_nn (env : Env) (load : Config → List Row) (d : Data)
    (shape : Nat × Nat) (scale_pixels : Bool) : Except DataError (NpArray × NpArray) := do
  let ids := unique ((Data.df load d).map Row.ImageId)
  let pairs ← ids.mapM (Data.to_single_nn env load d shape)
  let images := pairs.map Prod.fst
  let masks := pairs.map Prod.snd
  let collected := if d.augment then Data.augment_nn env images masks else (images, masks)
  let imagesArr := npStack collected.1
  let masksArr := npStack collected.2
  let imagesScaled := if scale_pixels then npScale imagesArr else imagesArr
  return (imagesScaled, npNewaxis masksArr)

/-- Membership in `uniqueAux seen l`: exactly the members of `l` not already
seen. -/
theorem mem_uniqueAux (a : Nat) (l : List Nat) :
    ∀ seen, (a ∈ uniqueAux seen l ↔ a ∈ l ∧ a ∉ seen) := by
  induction l with
  | nil => intro seen; simp [uniqueAux]
  | cons x xs ih =>
    intro seen
    by_cases hx : x ∈ seen
    · rw [show uniqueAux seen (x :: xs) = uniqueAux seen xs by simp [uniqueAux, hx],
        ih seen]
      simp only [List.mem_cons]
      constructor
      · exact fun h => ⟨Or.inr h.1, h.2⟩
      · rintro ⟨rfl | h1, h2⟩
        · exact absurd hx h2
        · exact ⟨h1, h2⟩
    · rw [show uniqueAux seen (x :: xs) = x :: uniqueAux (x :: seen) xs by
        simp [uniqueAux, hx]]
      simp only [List.mem_cons, ih (x :: seen)]
      constructor
      · rintro (rfl | ⟨h1, h2⟩)
        · exact ⟨Or.inl rfl, hx⟩
        · exact ⟨Or.inr h1, fun hc => h2 (Or.inr hc)⟩
      · rintro ⟨rfl | h1, h2⟩
        · exact Or.inl rfl
        · by_cases hax : a = x
          · exact Or.inl hax
          · refine Or.inr ⟨h1, fun hc => ?_⟩
            rcases hc with hc | hc
            · exact hax hc
            · exact h2 hc

/-- Accumulator version of the no-duplicates property. -/
theorem nodup_uniqueAux (l : List Nat) : ∀ seen, (uniqueAux seen l).Nodup := by
  induction l with
  | nil => intro seen; simp [uniqueAux]
  | cons x xs ih =>
    intro seen
    by_cases hx : x ∈ seen
    · simpa [uniqueAux, hx] using ih seen
    · rw [show uniqueAux seen (x :: xs) = x :: uniqueAux (x :: seen) xs by
        simp [uniqueAux, hx]]
      refine List.nodup_cons.2 ⟨fun hc => ?_, ih (x :: seen)⟩
      exact ((mem_uniqueAux x xs (x :: seen)).1 hc).2 (List.mem_cons_self x seen)

/-- `pandas.unique` yields a duplicate-free sequence. -/
theorem unique_nodup (l : List Nat) : (unique l).Nodup :=
  nodup_uniqueAux l []

/-- Membership in `unique l` is membership in `l`. -/
theorem mem_unique (a : Nat) (l : List Nat) : a ∈ unique l ↔ a ∈ l := by
  rw [unique, mem_uniqueAux]
  simp

/-- Python true division followed by `math.ceil` agrees with natural-number
ceiling division `(n + b - 1) / b` whenever the divisor is nonzero. -/
theorem pyCeilDiv_eq_natCeil (n b : Nat) (hb : b ≠ 0) :
    pyCeilDiv n b = some ((n + b - 1) / b) := by
  have hb0 : 0 < b := Nat.pos_of_ne_zero hb
  rw [pyCeilDiv, if_neg hb]
  congr 1
  have h1 : n ≤ ((n + b - 1) / b) * b := by
    have f1 : n + b - 1 < (n + b - 1) / b * b + b := Nat.lt_div_mul_add hb0
    obtain ⟨m, hm⟩ : ∃ m, (n + b - 1) / b * b = m := ⟨_, rfl⟩
    rw [hm] at f1 ⊢
    omega
  have h2 : ((n + b - 1) / b) * b < n + b := by
    have f2 : (n + b - 1) / b * b ≤ n + b - 1 := Nat.div_mul_le_self _ _
    obtain ⟨m, hm⟩ : ∃ m, (n + b - 1) / b * b = m := ⟨_, rfl⟩
    rw [hm] at f2 ⊢
    omega
  have hbq : (0 : ℚ) < (b : ℚ) := by exact_mod_cast hb0
  have hceil : ⌈(n : ℚ) / (b : ℚ)⌉ = (((n + b - 1) / b : ℕ) : ℤ) := by
    rw [Int.ceil_eq_iff]
    constructor
    · rw [lt_div_iff₀ hbq, Int.cast_natCast]
      have h2q : (((n + b - 1) / b : ℕ) : ℚ) * (b : ℚ) < (n : ℚ) + (b : ℚ) := by
        exact_mod_cast h2
      nlinarith [h2q]
    · rw [div_le_iff₀ hbq]
      exact_mod_cast h1
  rw [hceil, Int.toNat_natCast]

/-- Concatenating the first `n` contiguous chunks of width `bs` of a list
reproduces its `n * bs` long initial segment. -/
theorem flatten_range_chunks (bs : Nat) (P : List Nat) :
    ∀ n, ((List.range n).map (fun i => (P.drop (i * bs)).take bs)).flatten
      = P.take (n * bs) := by
  intro n
  induction n with
  | zero => simp
  | succ n ih =>
    rw [List.range_succ, List.map_append, List.flatten_append, ih]
    simp only [List.map_cons, List.map_nil, List.flatten_cons, List.flatten_nil,
      List.append_nil]
    rw [Nat.succ_mul, List.take_add]

/-- Filtering commutes with first-occurrence deduplication, provided the two
seen-accumulators agree on every element the filter keeps. -/
theorem uniqueAux_filter (p : Nat → Bool) :
    ∀ (l s1 s2 : List Nat), (∀ a, p a = true → (a ∈ s1 ↔ a ∈ s2)) →
      (uniqueAux s1 l).filter p = uniqueAux s2 (l.filter p) := by
  intro l
  induction l with
  | nil => intro s1 s2 _; simp [uniqueAux]
  | cons x xs ih =>
    intro s1 s2 h
    by_cases hp : p x = true
    · have hmem := h x hp
      rw [List.filter_cons_of_pos hp]
      by_cases hx : x ∈ s1
      · rw [show uniqueAux s1 (x :: xs) = uniqueAux s1 xs by simp [uniqueAux, hx],
          show uniqueAux s2 (x :: xs.filter p) = uniqueAux s2 (xs.filter p) by
            simp [uniqueAux, hmem.1 hx]]
        exact ih s1 s2 h
      · have hx2 : x ∉ s2 := fun hc => hx (hmem.2 hc)
        rw [show uniqueAux s1 (x :: xs) = x :: uniqueAux (x :: s1) xs by
            simp [uniqueAux, hx],
          show uniqueAux s2 (x :: xs.filter p) = x :: uniqueAux (x :: s2) (xs.filter p) by
            simp [uniqueAux, hx2],
          List.filter_cons_of_pos hp]
        congr 1
        refine ih (x :: s1) (x :: s2) (fun a ha => ?_)
        simp only [List.mem_cons, h a ha]
    · rw [List.filter_cons_of_neg hp]
      by_cases hx : x ∈ s1
      · rw [show uniqueAux s1 (x :: xs) = uniqueAux s1 xs by simp [uniqueAux, hx]]
        exact ih s1 s2 h
      · rw [show uniqueAux s1 (x :: xs) = x :: uniqueAux (x :: s1) xs by
            simp [uniqueAux, hx],
          List.filter_cons_of_neg hp]
        refine ih (x :: s1) s2 (fun a ha => ?_)
        have hax : ¬ a = x := fun hc => by rw [hc] at ha; exact hp ha
        simp only [List.mem_cons, h a ha]
        constructor
        · rintro (hc | hc)
          · exact absurd hc hax
          · exact hc
        · exact fun hc => Or.inr hc

/-- Deduplicating after filtering equals filtering after deduplicating. -/
theorem unique_filter (p : Nat → Bool) (l : List Nat) :
    unique (l.filter p) = (unique l).filter p :=
  (uniqueAux_filter p l [] [] (fun _ _ => Iff.rfl)).symm

/-- Restricting a duplicate-free sequence to a contiguous window of itself
returns exactly that window. -/
theorem filter_mem_take_drop (P : List Nat) (hP : P.Nodup) (a b : Nat) :
    P.filter (fun x => decide (x ∈ (P.drop a).take b)) = (P.drop a).take b := by
  obtain ⟨s, hs⟩ : ∃ s, (P.drop a).take b = s := ⟨_, rfl⟩
  rw [hs]
  have hsub : s ++ P.drop (a + b) = P.drop a := by
    rw [← hs]; exact List.drop_take_append_drop P a b
  have hsplit : P = P.take a ++ (s ++ P.drop (a + b)) := by
    rw [hsub, List.take_append_drop]
  have hPn : (P.take a ++ (s ++ P.drop (a + b))).Nodup := by
    rw [← hsplit]; exact hP
  rw [List.nodup_append] at hPn
  obtain ⟨-, hmid, hdisj⟩ := hPn
  rw [List.nodup_append] at hmid
  obtain ⟨-, -, hdisj2⟩ := hmid
  conv_lhs => rw [hsplit]
  rw [List.filter_append, List.filter_append]
  have e1 : (P.take a).filter (fun x => decide (x ∈ s)) = [] := by
    rw [List.filter_eq_nil_iff]
    intro x hx
    simp only [decide_eq_true_eq]
    exact fun hc => hdisj hx (List.mem_append_left _ hc)
  have e2 : s.filter (fun x => decide (x ∈ s)) = s := by
    rw [List.filter_eq_self]
    intro x hx
    simpa using hx
  have e3 : (P.drop (a + b)).filter (fun x => decide (x ∈ s)) = [] := by
    rw [List.filter_eq_nil_iff]
    intro x hx
    simp only [decide_eq_true_eq]
    exact fun hc => hdisj2 hc hx
  rw [e1, e2, e3, List.nil_append, List.append_nil]

/-- Mapping a fallible function over a list succeeds with a list of the same
length. -/
theorem mapM_ok_length {α β ε : Type} (f : α → Except ε β) :
    ∀ (l : List α) (ys : List β), l.mapM f = .ok ys → ys.length = l.length := by
  intro l
  induction l with
  | nil =>
    intro ys h
    simp only [List.mapM_nil, pure, Except.pure, Except.ok.injEq] at h
    rw [← h]
    rfl
  | cons x xs ih =>
    intro ys h
    rw [List.mapM_cons] at h
    cases hfx : f x with
    | error e => rw [hfx] at h; simp [Bind.bind, Except.bind] at h
    | ok y =>
      rw [hfx] at h
      cases hxs : xs.mapM f with
      | error e =>
        rw [hxs] at h
        simp [Bind.bind, Except.bind, Pure.pure, Except.pure] at h
      | ok ys2 =>
        rw [hxs] at h
        simp only [Bind.bind, Except.bind, Pure.pure, Except.pure, Except.ok.injEq] at h
        rw [← h]
        simp [ih ys2 hxs]

/-- Ceiling division bounds its argument: `n` fits inside `k` chunks of `bs`
when `k` is the ceiling of `n / bs`. -/
theorem le_ceil_mul (n bs k : Nat) (hbs0 : 0 < bs) (h : (n + bs - 1) / bs = k) :
    n ≤ k * bs := by
  have f1 : n + bs - 1 < (n + bs - 1) / bs * bs + bs := Nat.lt_div_mul_add hbs0
  rw [h] at f1
  obtain ⟨m, hm⟩ : ∃ m, k * bs = m := ⟨_, rfl⟩
  rw [hm] at f1 ⊢
  omega

/-- Computation of `Data._batch_data`: the construction of the sub-facade
always succeeds (the default batch size 16 is even) and yields exactly the
record fields written by `Data.__init__` from `config`, `override_df` and
`augment`. -/
theorem batch_data_eq_ok (d : Data) (df : List Row) (augment : Bool) (batch_id : Nat) :
    Data.batch_data d df augment batch_id
      = .ok { config := d.config
              split_config := DEFAULT_SPLIT_CONFIG
              _df := some (df.filter (fun r =>
                decide (r.ImageId ∈ Data.batch_image_ids d df augment batch_id)))
              _image_ids := []
              _data_filter := ALWAYS_TRUE
              _split_data := none
              batch_size := 16
              augment := augment
              augmentation := ⟨MOVE_SCALE_ROTATE, none⟩ } := by
  simp [Data.batch_data, Data.init]

/-- Fixture: a concrete configuration. -/
def cfg0 : Config := ⟨"rio", "3band"⟩

/-- Fixture: a trivial external CSV loader (never consulted, every fixture
facade carries an override table). -/
def load0 : Config → List Row := fun _ => []

/-- Fixture: an annotation table with unique image identifiers 1, 2, 3 in
first-occurrence order (identifier 1 has two polygon rows). -/
def rowsA : List Row := [⟨1, "PA"⟩, ⟨2, "PB"⟩, ⟨1, "PC"⟩, ⟨3, "PD"⟩]

/-- Fixture: a facade with batch size 4 and augmentation on (effective batch
size 2) over `rowsA`. -/
def dA : Data :=
  { config := cfg0
    split_config := DEFAULT_SPLIT_CONFIG
    _df := some rowsA
    _image_ids := []
    _data_filter := ALWAYS_TRUE
    _split_data := none
    batch_size := 4
    augment := true
    augmentation := ⟨MOVE_SCALE_ROTATE, none⟩ }

/-- C2: for every record table and flag, the batch slices for indices
`0 .. batch_count - 1` concatenate, in index order, to exactly the partition's
unique-identifier sequence; their lengths sum to its length; and they are
pairwise disjoint. -/
theorem claim_C2_batch_slices_partition (d : Data) (df : List Row) (augment : Bool)
    (k : Nat) (h : Data.batch_count d df augment = some k) :
    ((List.range k).map (fun i => Data.batch_image_ids d df augment i)).flatten
        = unique (df.map Row.ImageId)
    ∧ ((List.range k).map (fun i => (Data.batch_image_ids d df augment i).length)).sum
        = (unique (df.map Row.ImageId)).length
    ∧ ((List.range k).map (fun i => Data.batch_image_ids d df augment i)).Pairwise
        List.Disjoint := by
  obtain ⟨bs, hbsdef⟩ : ∃ bs, d.batch_size / (if augment then 2 else 1) = bs := ⟨_, rfl⟩
  obtain ⟨P, hPdef⟩ : ∃ P, unique (df.map Row.ImageId) = P := ⟨_, rfl⟩
  have hPnd : P.Nodup := hPdef ▸ unique_nodup _
  unfold Data.batch_count at h
  rw [hbsdef, hPdef] at h
  simp only [Data.batch_image_ids]
  rw [hbsdef, hPdef]
  rcases Nat.eq_zero_or_pos bs with hbs0 | hbs0
  · rw [hbs0] at h
    simp [pyCeilDiv] at h
  · rw [pyCeilDiv_eq_natCeil _ _ (Nat.pos_iff_ne_zero.mp hbs0), Option.some.injEq] at h
    have hnk : P.length ≤ k * bs := le_ceil_mul _ _ _ hbs0 h
    have hflat : ((List.range k).map (fun i => (P.drop (i * bs)).take bs)).flatten = P := by
      rw [flatten_range_chunks bs P k, List.take_of_length_le hnk]
    refine ⟨hflat, ?_, ?_⟩
    · have hlen := congrArg List.length hflat
      rw [List.length_flatten, List.map_map] at hlen
      exact hlen
    · have hnd : (((List.range k).map (fun i => (P.drop (i * bs)).take bs)).flatten).Nodup := by
        rw [hflat]; exact hPnd
      exact (List.nodup_flatten.mp hnd).2

/-- Computation of the batch count of the fixture facade `dA` over `rowsA`:
three unique identifiers at effective batch size 2 give two batches. -/
theorem batch_count_dA : Data.batch_count dA rowsA true = some 2 := by
  unfold Data.batch_count
  rw [pyCeilDiv_eq_natCeil _ _ (by decide)]
  rfl

/-- Witness for C2 at a concrete facade: batch size 4, augmentation on,
three unique identifiers, hence two slices. -/
theorem claim_C2_witness :
    Data.batch_count dA rowsA true = some 2
    ∧ (((List.range 2).map (fun i => Data.batch_image_ids dA rowsA true i)).flatten
          = unique (rowsA.map Row.ImageId)
      ∧ ((List.range 2).map (fun i => (Data.batch_image_ids dA rowsA true i).length)).sum
          = (unique (rowsA.map Row.ImageId)).length
      ∧ ((List.range 2).map (fun i => Data.batch_image_ids dA rowsA true i)).Pairwise
          List.Disjoint) :=
  ⟨batch_count_dA, claim_C2_batch_slices_partition dA rowsA true 2 batch_count_dA⟩

/-- C3: the batch count is the ceiling of the unique-identifier count over the
effective batch size, which is `batch_size // 2` when augmenting and
`batch_size` otherwise, whenever the effective batch size is positive. -/
theorem claim_C3_batch_count_ceil (d : Data) (df : List Row) (augment : Bool)
    (h : 0 < d.batch_size / (if augment then 2 else 1)) :
    Data.batch_count d df augment
      = some (((unique (df.map Row.ImageId)).length
            + d.batch_size / (if augment then 2 else 1) - 1)
          / (d.batch_size / (if augment then 2 else 1))) := by
  unfold Data.batch_count
  rw [pyCeilDiv_eq_natCeil _ _ (Nat.pos_iff_ne_zero.mp h)]

/-- Witness for C3 at the concrete facade `dA`. -/
theorem claim_C3_witness :
    0 < dA.batch_size / (if true then 2 else 1)
    ∧ Data.batch_count dA rowsA true
        = some (((unique (rowsA.map Row.ImageId)).length
              + dA.batch_size / (if true then 2 else 1) - 1)
            / (dA.batch_size / (if true then 2 else 1))) :=
  ⟨by decide, claim_C3_batch_count_ceil dA rowsA true (by decide)⟩

/-- C4 (amended): with a positive effective batch size, the empty table has
batch count 0; and a slice requested at or beyond the batch count is the empty
identifier sequence, with the sub-facade construction still succeeding on an
empty record subset (no error is raised). -/
theorem claim_C4_empty_partition (d : Data) (augment : Bool) (df : List Row)
    (i k : Nat)
    (hbs : 0 < d.batch_size / (if augment then 2 else 1))
    (hcount : Data.batch_count d df augment = some k)
    (hik : k ≤ i) :
    Data.batch_count d [] augment = some 0
    ∧ Data.batch_image_ids d df augment i = []
    ∧ ∃ sub, Data.batch_data d df augment i = .ok sub ∧ sub._df = some [] := by
  obtain ⟨bs, hbsdef⟩ : ∃ bs, d.batch_size / (if augment then 2 else 1) = bs := ⟨_, rfl⟩
  rw [hbsdef] at hbs
  unfold Data.batch_count at hcount
  rw [hbsdef, pyCeilDiv_eq_natCeil _ _ (Nat.pos_iff_ne_zero.mp hbs),
    Option.some.injEq] at hcount
  have hslice : Data.batch_image_ids d df augment i = [] := by
    have hn : (unique (df.map Row.ImageId)).length ≤ k * bs :=
      le_ceil_mul _ _ _ hbs hcount
    have hle : k * bs ≤ i * bs := Nat.mul_le_mul_right bs hik
    unfold Data.batch_image_ids
    rw [hbsdef, List.drop_eq_nil_of_le (le_trans hn hle)]
    exact List.take_nil
  refine ⟨?_, hslice, ?_⟩
  · unfold Data.batch_count
    rw [hbsdef, pyCeilDiv_eq_natCeil _ _ (Nat.pos_iff_ne_zero.mp hbs)]
    have hempty : (unique (([] : List Row).map Row.ImageId)).length = 0 := rfl
    rw [hempty]
    congr 1
    exact Nat.div_eq_of_lt (by omega)
  · refine ⟨_, batch_data_eq_ok d df augment i, ?_⟩
    show some (df.filter (fun r =>
      decide (r.ImageId ∈ Data.batch_image_ids d df augment i))) = some []
    rw [hslice]
    simp

/-- Witness for C4: the facade `dA` with three identifiers and two batches,
sliced at the out-of-range index 5. -/
theorem claim_C4_witness :
    (0 < dA.batch_size / (if true then 2 else 1)
      ∧ Data.batch_count dA rowsA true = some 2
      ∧ 2 ≤ 5)
    ∧ (Data.batch_count dA [] true = some 0
      ∧ Data.batch_image_ids dA rowsA true 5 = []
      ∧ ∃ sub, Data.batch_data dA rowsA true 5 = .ok sub ∧ sub._df = some []) :=
  ⟨⟨by decide, batch_count_dA, by decide⟩,
    claim_C4_empty_partition dA true rowsA 5 2 (by decide) batch_count_dA (by decide)⟩

/-- Counterexample to C4 as stated: with batch size 0 (accepted by the
constructor when augmentation is off) the batch count on an empty table is a
`ZeroDivisionError` (modelled `none`), not 0. -/
def dZero : Data :=
  { config := cfg0
    split_config := DEFAULT_SPLIT_CONFIG
    _df := some []
    _image_ids := []
    _data_filter := ALWAYS_TRUE
    _split_data := none
    batch_size := 0
    augment := false
    augmentation := ⟨MOVE_SCALE_ROTATE, none⟩ }

/-- Counterexample for C4: a constructible facade with batch size 0 whose
batch count on the empty partition is an error, not 0. -/
theorem claim_C4_counterexample :
    Data.init cfg0 DEFAULT_SPLIT_CONFIG MOVE_SCALE_ROTATE 0 (some []) none false
        = .ok dZero
    ∧ Data.batch_count dZero [] false = none
    ∧ ¬ Data.batch_count dZero [] false = some 0 := by
  refine ⟨rfl, rfl, ?_⟩
  intro hc
  exact Option.noConfusion hc

/-- C5: constructing the facade with augmentation on and an odd batch size
fails at construction; with augmentation off every batch size is accepted. -/
theorem claim_C5_precondition (config : Config) (split_config : SplitConfig)
    (seg_aug_config : SegAugConfig) (batch_size : Nat) (override_df : Option (List Row))
    (seed : Option Nat) :
    (Data.init config split_config seg_aug_config batch_size override_df seed false).isOk
        = true
    ∧ (Data.init config split_config seg_aug_config batch_size override_df seed true).isOk
        = decide (batch_size % 2 = 0) := by
  constructor
  · simp [Data.init, Except.isOk, Except.toBool]
  · by_cases hb : batch_size % 2 = 0
    · simp [Data.init, hb, Except.isOk, Except.toBool]
    · simp [Data.init, hb, Except.isOk, Except.toBool]

/-- C9: validation and test batch counting use the full configured batch size
(never halved, whatever the augment flag), and the sub-facades they build
carry `augment = false`; the training sub-facade carries the facade's own
augment flag. -/
theorem claim_C9_val_test_never_augment
    (gds : List Row → String → SplitConfig → GroupDataSplit)
    (load : Config → List Row) (d : Data) (batch_id : Nat) :
    Data.val_batch_count gds load d
        = pyCeilDiv (unique ((Data.split_data gds load d).1.val_df.map Row.ImageId)).length
            d.batch_size
    ∧ Data.test_batch_count gds load d
        = pyCeilDiv (unique ((Data.split_data gds load d).1.test_df.map Row.ImageId)).length
            d.batch_size
    ∧ (∃ sub, Data.val_batch_data gds load d batch_id = .ok sub ∧ sub.augment = false)
    ∧ (∃ sub, Data.test_batch_data gds load d batch_id = .ok sub ∧ sub.augment = false)
    ∧ (∃ sub, Data.train_batch_data gds load d batch_id = .ok sub
        ∧ sub.augment = d.augment) := by
  refine ⟨?_, ?_, ?_, ?_, ?_⟩
  · simp [Data.val_batch_count, Data.batch_count, Nat.div_one]
  · simp [Data.test_batch_count, Data.batch_count, Nat.div_one]
  · exact ⟨_, batch_data_eq_ok d (Data.split_data gds load d).1.val_df false batch_id, rfl⟩
  · exact ⟨_, batch_data_eq_ok d (Data.split_data gds load d).1.test_df false batch_id, rfl⟩
  · exact ⟨_, batch_data_eq_ok d (Data.split_data gds load d).1.train_df d.augment batch_id,
      rfl⟩

/-- C10: the sub-facade built for a batch inherits from the parent only the
base config, the records of the batch's identifiers and the augment flag
passed for that request; batch size reverts to the default 16, split and
augmentation configurations revert to the module defaults, the data filter is
reset to always-true, and both caches start empty. -/
theorem claim_C10_sub_facade_defaults (d : Data) (df : List Row) (augment : Bool)
    (batch_id : Nat) :
    ∃ sub, Data.batch_data d df augment batch_id = .ok sub
      ∧ sub.config = d.config
      ∧ sub.batch_size = 16
      ∧ sub.split_config = DEFAULT_SPLIT_CONFIG
      ∧ sub.augmentation = ⟨MOVE_SCALE_ROTATE, none⟩
      ∧ sub._data_filter = ALWAYS_TRUE
      ∧ sub._split_data = none
      ∧ sub._image_ids = []
      ∧ sub.augment = augment
      ∧ sub._df = some (df.filter (fun r =>
          decide (r.ImageId ∈ Data.batch_image_ids d df augment batch_id))) :=
  ⟨_, batch_data_eq_ok d df augment batch_id,
    rfl, rfl, rfl, rfl, rfl, rfl, rfl, rfl, rfl⟩

/-- Identifier sequence of a sub-facade: restricting the record table to a
contiguous window of its own unique-identifier sequence and deduplicating
again returns exactly that window. -/
theorem map_imageId_filter_mem (df : List Row) (s : List Nat) :
    (df.filter (fun r => decide (r.ImageId ∈ s))).map Row.ImageId
      = (df.map Row.ImageId).filter (fun x => decide (x ∈ s)) := by
  induction df with
  | nil => rfl
  | cons r rs ih =>
    by_cases hq : r.ImageId ∈ s
    · simp [List.filter_cons, hq, ih]
    · simp [List.filter_cons, hq, ih]

theorem unique_filter_slice (df : List Row) (a b : Nat) :
    unique ((df.filter (fun r =>
        decide (r.ImageId ∈ ((unique (df.map Row.ImageId)).drop a).take b))).map
          Row.ImageId)
      = ((unique (df.map Row.ImageId)).drop a).take b := by
  rw [map_imageId_filter_mem df (((unique (df.map Row.ImageId)).drop a).take b)]
  rw [unique_filter, filter_mem_take_drop _ (unique_nodup _) a b]

/-- Leading dimension of the arrays assembled by `to_nn`: the number of unique
identifiers of the current view, doubled when augmentation is on, provided the
external augmentation preserves cardinality. -/
theorem to_nn_shapes (env : Env) (load : Config → List Row) (d : Data)
    (shape : Nat × Nat) (scale_pixels : Bool) (p : NpArray × NpArray)
    (hcard : ∀ imgs msks, (env.augRun imgs msks).1.length = imgs.length
      ∧ (env.augRun imgs msks).2.length = msks.length)
    (h : Data.to_nn env load d shape scale_pixels = .ok p) :
    p.1.shape.head? = some ((if d.augment then 2 else 1)
        * (unique ((Data.df load d).map Row.ImageId)).length)
    ∧ p.2.shape.head? = some ((if d.augment then 2 else 1)
        * (unique ((Data.df load d).map Row.ImageId)).length) := by
  obtain ⟨ids, hids⟩ : ∃ ids, unique ((Data.df load d).map Row.ImageId) = ids := ⟨_, rfl⟩
  simp only [Data.to_nn] at h
  rw [hids] at h ⊢
  cases hpairs : ids.mapM (Data.to_single_nn env load d shape) with
  | error e =>
    rw [hpairs] at h
    simp [Bind.bind, Except.bind] at h
  | ok pairs =>
    rw [hpairs] at h
    simp only [Bind.bind, Except.bind, Pure.pure, Except.pure, Except.ok.injEq] at h
    have hplen : pairs.length = ids.length := mapM_ok_length _ ids pairs hpairs
    have h1 := (hcard (pairs.map Prod.fst) (pairs.map Prod.snd)).1
    have h2 := (hcard (pairs.map Prod.fst) (pairs.map Prod.snd)).2
    rw [← h]
    cases hb : d.augment with
    | false =>
      cases scale_pixels with
      | false => simp [npStack, npScale, npNewaxis, Data.augment_nn, hplen]
      | true => simp [npStack, npScale, npNewaxis, Data.augment_nn, hplen]
    | true =>
      cases scale_pixels with
      | false =>
        simp [npStack, npScale, npNewaxis, Data.augment_nn, hplen, h1, h2,
          Nat.two_mul]
      | true =>
        simp [npStack, npScale, npNewaxis, Data.augment_nn, hplen, h1, h2,
          Nat.two_mul]

/-- C1: whenever both resolve, the mask's pixel shape equals the first two
components (height, width) of the loaded image's shape, because the mask
raster is created with exactly the image's `RasterXSize` by `RasterYSize`. -/
theorem claim_C1_mask_image_aligned (env : Env) (load : Config → List Row)
    (d : Data) (image_id : Nat) (img msk : NpArray)
    (himg : Data.image_for env d image_id = .ok img)
    (hmsk : Data.mask_for env load d image_id = .ok msk) :
    msk.shape = img.shape.take 2 := by
  unfold Data.image_for at himg
  unfold Data.mask_for at hmsk
  cases hrows : (Data.df load d).filter (fun r => decide (r.ImageId = image_id)) with
  | nil =>
    simp only [hrows] at hmsk
    exact Except.noConfusion hmsk
  | cons r rs =>
    simp only [hrows] at hmsk
    cases hf : env.files (env.pathOf d.config image_id) with
    | none =>
      simp only [hf] at himg
      exact Except.noConfusion himg
    | some f =>
      simp only [hf] at himg hmsk
      cases hgeo : f.geo with
      | none =>
        simp only [hgeo] at hmsk
        exact Except.noConfusion hmsk
      | some meta =>
        simp only [hgeo] at hmsk
        cases hw : parseAllWkt env ((r :: rs).map Row.PolygonWKT_Geo) with
        | none =>
          simp only [hw] at hmsk
          exact Except.noConfusion hmsk
        | some polys =>
          simp only [hw, Except.ok.injEq] at himg hmsk
          rw [← himg, ← hmsk]
          rfl

/-- Fixture: raster metadata present on the well-formed image file. -/
def geoA : GeoMeta := ⟨[0, 1, 0, 0, 0, 1], "EPSG4326"⟩

/-- Fixture: a well-formed 10 by 12 pixel, 3 channel image file with raster
metadata. -/
def fileA : ImageFile :=
  { height := 10, width := 12, channels := 3, pixel := fun _ _ _ => 0,
    geo := some geoA }

/-- Fixture: an image file whose raster metadata is unavailable. -/
def fileNoGeo : ImageFile :=
  { height := 10, width := 12, channels := 3, pixel := fun _ _ _ => 0,
    geo := none }

/-- Fixture: a healthy external world — every path resolves to `fileA`, every
WKT except the sentinel "BAD" parses, augmentation is the identity. -/
def envA : Env :=
  { pathOf := fun _ image_id => toString image_id
    files := fun _ => some fileA
    parseWkt := fun w => if w = "BAD" then none else some ⟨w⟩
    burn := fun _ _ _ _ _ _ => 1
    resize := fun _ a => a
    augRun := fun images masks => (images, masks) }

/-- Fixture: a world in which no image file can be opened. -/
def envNone : Env :=
  { envA with files := fun _ => none }

/-- Fixture: a world in which the image opens but has no raster metadata. -/
def envNoGeo : Env :=
  { envA with files := fun _ => some fileNoGeo }

/-- Fixture: a world in which every polygon WKT fails to parse. -/
def envBad : Env :=
  { envA with parseWkt := fun _ => none }

/-- Witness for C1 at the concrete facade `dA` and world `envA`. -/
theorem claim_C1_witness :
    ∃ img msk, Data.image_for envA dA 1 = .ok img
      ∧ Data.mask_for envA load0 dA 1 = .ok msk
      ∧ msk.shape = img.shape.take 2 :=
  ⟨_, _, rfl, rfl, claim_C1_mask_image_aligned envA load0 dA 1 _ _ rfl rfl⟩

/-- C6: with the identifier present, `mask_for` fails with the alignment error
when the image file cannot be opened or its raster metadata is unavailable,
and with the geometry error when a polygon WKT of its rows fails to parse;
each failure is returned directly (no retry). -/
theorem claim_C6_mask_error_taxonomy (env : Env) (load : Config → List Row)
    (d : Data) (image_id : Nat) :
    ((Data.df load d).filter (fun r => decide (r.ImageId = image_id)) ≠ []
      → env.files (env.pathOf d.config image_id) = none
      → Data.mask_for env load d image_id = .error .alignment)
    ∧ (∀ f, (Data.df load d).filter (fun r => decide (r.ImageId = image_id)) ≠ []
      → env.files (env.pathOf d.config image_id) = some f
      → f.geo = none
      → Data.mask_for env load d image_id = .error .alignment)
    ∧ (∀ f meta,
        (Data.df load d).filter (fun r => decide (r.ImageId = image_id)) ≠ []
      → env.files (env.pathOf d.config image_id) = some f
      → f.geo = some meta
      → parseAllWkt env (((Data.df load d).filter
          (fun r => decide (r.ImageId = image_id))).map Row.PolygonWKT_Geo) = none
      → Data.mask_for env load d image_id = .error .geometry) := by
  refine ⟨?_, ?_, ?_⟩
  · intro hrows hf
    unfold Data.mask_for
    cases hr : (Data.df load d).filter (fun r => decide (r.ImageId = image_id)) with
    | nil => exact absurd hr hrows
    | cons a as => simp only [hr, hf]
  · intro f hrows hf hgeo
    unfold Data.mask_for
    cases hr : (Data.df load d).filter (fun r => decide (r.ImageId = image_id)) with
    | nil => exact absurd hr hrows
    | cons a as => simp only [hr, hf, hgeo]
  · intro f meta hrows hf hgeo hw
    unfold Data.mask_for
    cases hr : (Data.df load d).filter (fun r => decide (r.ImageId = image_id)) with
    | nil => exact absurd hr hrows
    | cons a as =>
      rw [hr] at hw
      simp only [hr, hf, hgeo, hw]

/-- Witness for C6: the three failure worlds at the concrete facade `dA`. -/
theorem claim_C6_witness :
    Data.mask_for envNone load0 dA 1 = .error .alignment
    ∧ Data.mask_for envNoGeo load0 dA 1 = .error .alignment
    ∧ Data.mask_for envBad load0 dA 1 = .error .geometry :=
  ⟨(claim_C6_mask_error_taxonomy envNone load0 dA 1).1 (by decide) rfl,
   (claim_C6_mask_error_taxonomy envNoGeo load0 dA 1).2.1 fileNoGeo (by decide) rfl rfl,
   (claim_C6_mask_error_taxonomy envBad load0 dA 1).2.2 fileA geoA (by decide) rfl rfl rfl⟩

/-- C7 (amended): setting the data filter stores the new predicate and clears
the cached split, so the next split access recomputes from the newly filtered
table; the cached image-identifier list is not touched. -/
theorem claim_C7_filter_invalidates_split_only (d : Data) (f : Row → Bool)
    (gds : List Row → String → SplitConfig → GroupDataSplit)
    (load : Config → List Row) :
    (Data.set_data_filter d f)._split_data = none
    ∧ (Data.set_data_filter d f)._data_filter = f
    ∧ (Data.set_data_filter d f)._image_ids = d._image_ids
    ∧ (Data.split_data gds load (Data.set_data_filter d f)).1
        = gds (Data.df load (Data.set_data_filter d f)) "ImageId" d.split_config :=
  ⟨rfl, rfl, rfl, rfl⟩

/-- Fixture: a filter keeping only identifier 1 of `rowsA`. -/
def filterOdd : Row → Bool := fun r => decide (r.ImageId = 1)

/-- Fixture: the facade `dA` after its identifier cache has been populated by
one `image_ids` access. -/
def dCached : Data := (Data.image_ids load0 dA).2

/-- Fixture: `dCached` after the data filter is changed. -/
def dAfter : Data := Data.set_data_filter dCached filterOdd

/-- Counterexample for C7: after changing the filter, the `image_ids` accessor
still serves the stale cache [1, 2, 3] although the newly filtered table has
the single identifier 1, so the cached identifier list was not invalidated. -/
theorem claim_C7_counterexample :
    dCached._image_ids = [1, 2, 3]
    ∧ (Data.image_ids load0 dAfter).1 = [1, 2, 3]
    ∧ unique ((Data.df load0 dAfter).map Row.ImageId) = [1]
    ∧ ¬ (Data.image_ids load0 dAfter).1
        = unique ((Data.df load0 dAfter).map Row.ImageId) := by
  refine ⟨by decide, by decide, by decide, ?_⟩
  intro h
  rw [show (Data.image_ids load0 dAfter).1 = [1, 2, 3] by decide,
    show unique ((Data.df load0 dAfter).map Row.ImageId) = [1] by decide] at h
  exact absurd h (by decide)

/-- C8: with batch size 16 and augmentation on, a training batch whose slice
still has 8 identifiers available assembles into arrays whose leading
dimension is exactly 16 (8 originals doubled by the cardinality-preserving
augmentation). -/
theorem claim_C8_augmented_batch_cardinality (env : Env)
    (gds : List Row → String → SplitConfig → GroupDataSplit)
    (load load2 : Config → List Row) (d : Data) (s : GroupDataSplit)
    (i : Nat) (sub : Data) (shape : Nat × Nat) (scale_pixels : Bool)
    (p : NpArray × NpArray)
    (hcard : ∀ imgs msks, (env.augRun imgs msks).1.length = imgs.length
      ∧ (env.augRun imgs msks).2.length = msks.length)
    (hbs : d.batch_size = 16) (haug : d.augment = true)
    (hsplit : d._split_data = some s)
    (hn : 8 * i + 8 ≤ (unique (s.train_df.map Row.ImageId)).length)
    (hsub : Data.train_batch_data gds load d i = .ok sub)
    (hnn : Data.to_nn env load2 sub shape scale_pixels = .ok p) :
    p.1.shape.head? = some 16 ∧ p.2.shape.head? = some 16 := by
  have hsd : (Data.split_data gds load d).1 = s := by
    unfold Data.split_data
    rw [hsplit]
  unfold Data.train_batch_data at hsub
  rw [hsd, haug, batch_data_eq_ok, Except.ok.injEq] at hsub
  subst hsub
  have hshapes := to_nn_shapes env load2 _ shape scale_pixels p hcard hnn
  have hbs8 : d.batch_size / (if true then 2 else 1) = 8 := by
    rw [hbs]
    rfl
  have hcnt : (unique ((Data.df load2
      { config := d.config
        split_config := DEFAULT_SPLIT_CONFIG
        _df := some (s.train_df.filter (fun r =>
          decide (r.ImageId ∈ Data.batch_image_ids d s.train_df true i)))
        _image_ids := []
        _data_filter := ALWAYS_TRUE
        _split_data := none
        batch_size := 16
        augment := true
        augmentation := ⟨MOVE_SCALE_ROTATE, none⟩ }).map Row.ImageId)).length
      = 8 := by
    have hdf : Data.df load2
        { config := d.config
          split_config := DEFAULT_SPLIT_CONFIG
          _df := some (s.train_df.filter (fun r =>
            decide (r.ImageId ∈ Data.batch_image_ids d s.train_df true i)))
          _image_ids := []
          _data_filter := ALWAYS_TRUE
          _split_data := none
          batch_size := 16
          augment := true
          augmentation := ⟨MOVE_SCALE_ROTATE, none⟩ }
        = s.train_df.filter (fun r =>
            decide (r.ImageId ∈ Data.batch_image_ids d s.train_df true i)) := by
      simp [Data.df, ALWAYS_TRUE]
    rw [hdf]
    unfold Data.batch_image_ids
    rw [hbs8]
    rw [unique_filter_slice s.train_df (i * 8) 8]
    rw [List.length_take, List.length_drop]
    omega
  rw [hcnt] at hshapes
  exact hshapes

/-- Fixture: eight annotation rows with the distinct identifiers 0 through
7. -/
def rows8 : List Row :=
  [⟨0, "P0"⟩, ⟨1, "P1"⟩, ⟨2, "P2"⟩, ⟨3, "P3"⟩,
   ⟨4, "P4"⟩, ⟨5, "P5"⟩, ⟨6, "P6"⟩, ⟨7, "P7"⟩]

/-- Fixture: a split whose training partition is `rows8`. -/
def s8 : GroupDataSplit := ⟨rows8, [], []⟩

/-- Fixture: a pass-through group-split collaborator (never consulted — the
fixture facade carries a cached split). -/
def gds0 : List Row → String → SplitConfig → GroupDataSplit :=
  fun df _ _ => ⟨df, [], []⟩

/-- Fixture: a facade with batch size 16, augmentation on and a cached split
over the eight identifiers. -/
def d8 : Data :=
  { config := cfg0
    split_config := DEFAULT_SPLIT_CONFIG
    _df := some rows8
    _image_ids := []
    _data_filter := ALWAYS_TRUE
    _split_data := some s8
    batch_size := 16
    augment := true
    augmentation := ⟨MOVE_SCALE_ROTATE, none⟩ }

/-- Witness for C8 at the concrete facade `d8` and world `envA`. -/
theorem claim_C8_witness :
    ∃ sub p, Data.train_batch_data gds0 load0 d8 0 = .ok sub
      ∧ Data.to_nn envA load0 sub (5, 5) false = .ok p
      ∧ (p.1.shape.head? = some 16 ∧ p.2.shape.head? = some 16) :=
  ⟨_, _, rfl, rfl,
    claim_C8_augmented_batch_cardinality envA gds0 load0 load0 d8 s8 0 _ (5, 5) false _
      (fun imgs msks => ⟨rfl, rfl⟩) rfl rfl rfl (by decide) rfl rfl⟩

end ABFS
